import Mathlib

/-!
Shallow embedding of the orbex execution subsystem (worker, heartbeat/reaper,
scheduler, run control handlers) over a relational store model, together with
theorems settling the specification claims about it.

The store is modelled as lists of rows (jobs, job_runs, job_queue); each SQL
statement of the source becomes a pure store transformer; the supervised
execution (Worker.executeRun) becomes a trace of events generated from a
docker oracle describing the outcomes of the container-runtime calls, and the
store effect of a trace is the fold of its write events.
-/

namespace Orbex

/-- Run status enumeration, from the run_status SQL enum / models.RunStatus. -/
inductive RunStatus where
  | pending
  | running
  | succeeded
  | failed
  | paused
  | cancelled
deriving DecidableEq, Repr

/-- Terminal states are succeeded, failed, cancelled. -/
def RunStatus.isTerminal : RunStatus → Bool
  | .succeeded => true
  | .failed => true
  | .cancelled => true
  | _ => false

/-- Job definition row (models.Job / jobs table); ids are opaque, modelled as Nat. -/
structure Job where
  id : Nat
  userId : Nat
  name : String
  image : String
  command : List String
  memoryMB : Nat
  cpuMillicores : Nat
  timeoutSeconds : Nat
  schedule : Option String
  isActive : Bool
deriving DecidableEq, Repr

/-- Run row (models.JobRun / job_runs table); timestamps are Nat instants. -/
structure JobRun where
  id : Nat
  jobId : Nat
  userId : Nat
  status : RunStatus
  containerId : Option String
  exitCode : Option Int
  errorMessage : Option String
  startedAt : Option Nat
  finishedAt : Option Nat
  pausedAt : Option Nat
  heartbeatAt : Option Nat
  durationMs : Option Int
  logsTail : Option String
  createdAt : Nat
deriving DecidableEq, Repr

/-- Queue row (models.QueueItem / job_queue table). -/
structure QueueItem where
  id : Nat
  jobId : Nat
  runId : Nat
  priority : Int
  scheduledAt : Nat
  pickedAt : Option Nat
  createdAt : Nat
deriving DecidableEq, Repr

/-- The durable store: the three tables the execution subsystem touches. -/
structure Store where
  jobs : List Job
  runs : List JobRun
  queue : List QueueItem
deriving DecidableEq, Repr

/-- UPDATE job_runs ... WHERE id = rid (unguarded row update by primary key). -/
def updateRun (rid : Nat) (f : JobRun → JobRun) (s : Store) : Store :=
  { s with runs := s.runs.map fun r => if r.id = rid then f r else r }

/-- SELECT ... FROM job_runs WHERE id = $1 AND user_id = $2 (ownership lookup). -/
def findRunFor (uid rid : Nat) (s : Store) : Option JobRun :=
  s.runs.find? fun r => r.id == rid && r.userId == uid

/-- The statement marking a claimed run as running (executeRun): UPDATE job_runs
SET status = running, started_at = $1, heartbeat_at = $1 WHERE id = $2. -/
def markRunningStmt (t rid : Nat) : Store → Store :=
  updateRun rid fun r =>
    { r with status := .running, startedAt := some t, heartbeatAt := some t }

/-- The failRun statement: UPDATE job_runs SET status = failed, error_message = $1,
finished_at = $2, duration_ms = $3, heartbeat_at = NULL WHERE id = $4. -/
def failRunStmt (msg : String) (t : Nat) (dur : Int) (rid : Nat) : Store → Store :=
  updateRun rid fun r =>
    { r with status := .failed, errorMessage := some msg, finishedAt := some t,
             durationMs := some dur, heartbeatAt := none }

/-- UPDATE job_runs SET container_id = $1 WHERE id = $2. -/
def storeContainerIdStmt (cid : String) (rid : Nat) : Store → Store :=
  updateRun rid fun r => { r with containerId := some cid }

/-- The supervisor terminal statements of executeRun. All four branches update
WHERE id = $n only (no status condition); the succeeded branch does not mention
error_message, so it is left unchanged there (errMsg = none). -/
def terminalStmt (st : RunStatus) (ec : Int) (errMsg : Option String)
    (t : Nat) (dur : Int) (logs : String) (rid : Nat) : Store → Store :=
  updateRun rid fun r =>
    { r with status := st, exitCode := some ec,
             errorMessage := match errMsg with
               | some m => some m
               | none => r.errorMessage,
             finishedAt := some t, durationMs := some dur,
             logsTail := some logs, heartbeatAt := none }

/-- cleanupQueue: DELETE FROM job_queue WHERE id = $1. -/
def cleanupQueue (qid : Nat) (s : Store) : Store :=
  { s with queue := s.queue.filter fun q => q.id ≠ qid }

/-- One tick of emitHeartbeat: UPDATE job_runs SET heartbeat_at = now()
WHERE id = $1 AND status IN (running, paused). -/
def emitHeartbeatTick (t rid : Nat) (s : Store) : Store :=
  { s with runs := s.runs.map fun r =>
      if r.id = rid && (r.status == .running || r.status == .paused) then
        { r with heartbeatAt := some t }
      else r }

/-- Observable steps of Worker.executeRun, in program order: container-runtime
calls, the store writes, the heartbeat-task start and cancel, and a caught
panic. Write events carry the data their SQL statement carries. -/
inductive Ev where
  | markRunning
  | pullImage
  | createContainer
  | storeContainerId (cid : String)
  | registerWait
  | startContainer
  | heartbeatStart
  | stopContainer
  | heartbeatCancel
  | getLogs
  | terminalWrite (st : RunStatus) (ec : Int) (errMsg : Option String) (logs : String)
  | failRunWrite (msg : String)
  | cleanup
  | removeContainer
  | panicked (msg : String)
deriving DecidableEq, Repr

/-- Outcome of the CreateContainer call; a panic inside it stands for any panic
raised in the supervision path and caught by the deferred recover. -/
inductive CreateOutcome where
  | ok (cid : String)
  | err (msg : String)
  | panics (msg : String)
deriving DecidableEq, Repr

/-- Outcomes of the environment calls executeRun makes, fixed up front so the
whole supervised execution is a function of them. -/
structure DockerOracle where
  markRunningOk : Bool
  pullErr : Option String
  createOutcome : CreateOutcome
  startErr : Option String
  timerFires : Bool
  waitExitCode : Int
  waitErr : Option String
  logsResult : String
deriving DecidableEq, Repr

/-- Status, exit code and error message written by the terminal branch of
executeRun (the if/else chain on timedOut, result.err and exitCode). -/
structure TerminalDecision where
  status : RunStatus
  exitCode : Int
  errorMessage : Option String
deriving DecidableEq, Repr

/-- The terminal-state computation of executeRun, verbatim from the branch
structure: timeout, then wait error, then zero exit, then nonzero exit. -/
def decideTerminal (timedOut : Bool) (timeoutSeconds : Nat)
    (waitErr : Option String) (exitCode : Int) : TerminalDecision :=
  if timedOut then
    { status := .failed, exitCode := exitCode,
      errorMessage := some ("timeout exceeded (" ++ toString timeoutSeconds ++ "s limit)") }
  else
    match waitErr with
    | some e => { status := .failed, exitCode := exitCode, errorMessage := some e }
    | none =>
      if exitCode = 0 then
        { status := .succeeded, exitCode := 0, errorMessage := none }
      else
        { status := .failed, exitCode := exitCode,
          errorMessage := some ("exit code " ++ toString exitCode) }

/-- Worker.executeRun as the trace of its steps, following the control flow of
the source: mark running (early return on store error), pull image, create
container (panic routed through the deferred recover into failRun only), store
container id, register the wait future, start container, start the heartbeat
task, wait with optional timeout (stop on timer), cancel heartbeat, fetch
logs, write the terminal state, clean the queue row, remove the container. -/
def executeRun (timeoutSeconds : Nat) (o : DockerOracle) : List Ev :=
  if !o.markRunningOk then []
  else
    Ev.markRunning ::
    match o.pullErr with
    | some e => [Ev.failRunWrite ("image pull failed: " ++ e), Ev.cleanup]
    | none =>
      Ev.pullImage ::
      match o.createOutcome with
      | .panics m => [Ev.panicked m, Ev.failRunWrite ("panic: " ++ m)]
      | .err e => [Ev.createContainer, Ev.failRunWrite ("container create failed: " ++ e), Ev.cleanup]
      | .ok cid =>
        Ev.createContainer :: Ev.storeContainerId cid :: Ev.registerWait ::
        match o.startErr with
        | some e => [Ev.startContainer, Ev.failRunWrite ("container start failed: " ++ e),
                     Ev.removeContainer, Ev.cleanup]
        | none =>
          Ev.startContainer :: Ev.heartbeatStart ::
          (let timedOut := decide (0 < timeoutSeconds) && o.timerFires
           let d := decideTerminal timedOut timeoutSeconds o.waitErr o.waitExitCode
           (if timedOut then [Ev.stopContainer] else []) ++
           [Ev.heartbeatCancel, Ev.getLogs,
            Ev.terminalWrite d.status d.exitCode d.errorMessage o.logsResult,
            Ev.cleanup, Ev.removeContainer])

/-- Store effect of one executeRun event: the write events apply their SQL
statement, the container-runtime events do not touch the store. -/
def applyEv (rid qid : Nat) (startT endT : Nat) (dur : Int) : Ev → Store → Store
  | .markRunning => markRunningStmt startT rid
  | .storeContainerId cid => storeContainerIdStmt cid rid
  | .terminalWrite st ec em logs => terminalStmt st ec em endT dur logs rid
  | .failRunWrite m => failRunStmt m endT dur rid
  | .cleanup => cleanupQueue qid
  | _ => id

/-- Store effect of a trace: fold of the event effects in order. -/
def applyTrace (rid qid startT endT : Nat) (dur : Int) (evs : List Ev) (s : Store) : Store :=
  evs.foldl (fun st e => applyEv rid qid startT endT dur e st) s

/-- First argument occurs in the trace and the second occurs later. -/
def precedes (a b : Ev) : List Ev → Bool
  | [] => false
  | e :: rest => if e = a then rest.contains b else precedes a b rest

/-- Result of the kill endpoint, mirroring RunHandler.KillRun responses. -/
inductive KillResult where
  | notFound
  | conflict
  | ok
deriving DecidableEq, Repr

/-- RunHandler.KillRun: look up the run by id and owner; 409 unless status is
running or paused; stop and remove the container (no store effect); set status
cancelled with finished_at, duration_ms and error_message = Killed by user
(UPDATE WHERE id, no status condition); delete the queue rows of the run. -/
def killRun (now uid rid : Nat) (s : Store) : KillResult × Store :=
  match findRunFor uid rid s with
  | none => (.notFound, s)
  | some run =>
    if run.status ≠ RunStatus.running ∧ run.status ≠ RunStatus.paused then
      (.conflict, s)
    else
      let durationMs : Int := match run.startedAt with
        | some st => (now : Int) - (st : Int)
        | none => 0
      let s1 := updateRun rid (fun r =>
        { r with status := .cancelled, finishedAt := some now,
                 durationMs := some durationMs,
                 errorMessage := some "Killed by user" }) s
      (.ok, { s1 with queue := s1.queue.filter fun q => q.runId ≠ rid })

/-- Result of the logs endpoint, mirroring RunHandler.GetRunLogs responses. -/
inductive LogsResult where
  | notFound
  | ok (logs : String)
deriving DecidableEq, Repr

/-- RunHandler.GetRunLogs: look up the run by id and owner; if it has a
container id and its status is running or paused, try the live container logs
and return them on success; in every other case (including a live-fetch
error) return the stored logs_tail, with the empty string for NULL. The
parameter live is the docker GetLogs call. -/
def getRunLogs (live : String → Except String String) (uid rid : Nat) (s : Store) : LogsResult :=
  match findRunFor uid rid s with
  | none => .notFound
  | some run =>
    match run.containerId with
    | some cid =>
      if run.status = RunStatus.running ∨ run.status = RunStatus.paused then
        match live cid with
        | .ok l => .ok l
        | .error _ => .ok (run.logsTail.getD "")
      else .ok (run.logsTail.getD "")
    | none => .ok (run.logsTail.getD "")

/-- staleThreshold = 60 * time.Second, in seconds. -/
def staleThreshold : Nat := 60

/-- The reaper selection condition: status IN (running, paused) AND
heartbeat_at IS NOT NULL AND heartbeat_at < now() - staleThreshold. -/
def isStale (now : Nat) (r : JobRun) : Bool :=
  (r.status == .running || r.status == .paused) &&
  match r.heartbeatAt with
  | some h => decide (h + staleThreshold < now)
  | none => false

/-- Worker.reapStaleRuns: select the stale runs, then for each one stop and
remove its container (no store effect), mark it failed with the heartbeat
timeout message (UPDATE WHERE id), and delete its queue rows. -/
def reapStaleRuns (now : Nat) (s : Store) : Store :=
  let staleIds := (s.runs.filter (isStale now)).map JobRun.id
  { s with
    runs := s.runs.map fun r =>
      if staleIds.contains r.id then
        { r with status := .failed,
                 errorMessage := some "heartbeat timeout: worker may have crashed",
                 finishedAt := some now, heartbeatAt := none }
      else r,
    queue := s.queue.filter fun q => !staleIds.contains q.runId }

/-- Eligibility of a queue row for the claim query: picked_at IS NULL,
scheduled_at <= now(), not locked by another worker (FOR UPDATE OF q SKIP
LOCKED skips those), and the JOIN jobs ON j.id = q.job_id finds a job. -/
def claimEligible (now : Nat) (locked : List Nat) (jobs : List Job) (q : QueueItem) : Bool :=
  q.pickedAt.isNone && decide (q.scheduledAt ≤ now) && !locked.contains q.id
    && (jobs.find? fun j => j.id == q.jobId).isSome

/-- ORDER BY q.priority DESC, q.scheduled_at ASC: a sorts strictly before b. -/
def ordBefore (a b : QueueItem) : Bool :=
  decide (b.priority < a.priority)
    || (a.priority == b.priority && decide (a.scheduledAt < b.scheduledAt))

/-- LIMIT 1 under the ordering: an extremal element of the candidate list. -/
def selectBest : List QueueItem → Option QueueItem
  | [] => none
  | q :: rest => some (rest.foldl (fun b q2 => if ordBefore q2 b then q2 else b) q)

/-- The claim SELECT of Worker.pollAndExecute: the best eligible row, if any. -/
def claimQuery (now : Nat) (locked : List Nat) (s : Store) : Option QueueItem :=
  selectBest (s.queue.filter (claimEligible now locked s.jobs))

/-- Result of one poll: a claimed job and queue row, or no work, or a store
error. pgx returns ErrNoRows for an empty select, a distinct value from any
other error, so the outcomes are distinguishable at the store boundary. -/
inductive ClaimOutcome where
  | claimed (j : Job) (q : QueueItem)
  | empty
  | dbError
deriving DecidableEq, Repr

/-- Worker.pollAndExecute, store side: within one transaction select the best
eligible queue row joined with its job, set picked_at = now() on it, commit;
roll back and report no work when the select returns no row. dbFail stands
for a store error inside the transaction (rolled back, nothing changed). -/
def pollAndExecute (dbFail : Bool) (now : Nat) (locked : List Nat) (s : Store) :
    ClaimOutcome × Store :=
  if dbFail then (.dbError, s)
  else
    match claimQuery now locked s with
    | none => (.empty, s)
    | some q =>
      match s.jobs.find? fun j => j.id == q.jobId with
      | none => (.empty, s)
      | some j =>
        (.claimed j q,
         { s with queue := s.queue.map fun r =>
             if r.id = q.id then { r with pickedAt := some now } else r })

/-- COUNT(*) FROM job_runs WHERE job_id = $1 AND status IN (pending, running,
paused), the non-terminal run count of shouldEnqueue. -/
def nonTerminalCount (jobId : Nat) (s : Store) : Nat :=
  (s.runs.filter fun r => r.jobId == jobId &&
    (r.status == RunStatus.pending || r.status == RunStatus.running
      || r.status == RunStatus.paused)).length

/-- SELECT created_at FROM job_runs WHERE job_id = $1 ORDER BY created_at DESC
LIMIT 1: the greatest created_at among the runs of the job, if any. -/
def lastRunCreatedAt (jobId : Nat) (s : Store) : Option Nat :=
  match (s.runs.filter fun r => r.jobId == jobId).map JobRun.createdAt with
  | [] => none
  | c :: rest => some (rest.foldl max c)

/-- Worker.shouldEnqueue: false on an unparseable cron expression; false when
the job has a non-terminal run; true when the job never ran; else true iff
now is at or past next(last created_at). The parameter next is the parsed
cron schedule Next function. -/
def shouldEnqueue (next : Nat → Nat) (parseOk : Bool) (jobId : Nat) (now : Nat)
    (s : Store) : Bool :=
  if !parseOk then false
  else if 0 < nonTerminalCount jobId s then false
  else
    match lastRunCreatedAt jobId s with
    | none => true
    | some t => decide (next t ≤ now)

/-- Worker.enqueueScheduledRun: INSERT a pending run, then INSERT a queue row
for it (priority and scheduled_at take their column defaults 0 and now()). -/
def enqueueScheduledRun (jobId userId runId queueId now : Nat) (s : Store) : Store :=
  { s with
    runs := s.runs ++ [{ id := runId, jobId := jobId, userId := userId,
                         status := .pending, containerId := none, exitCode := none,
                         errorMessage := none, startedAt := none, finishedAt := none,
                         pausedAt := none, heartbeatAt := none, durationMs := none,
                         logsTail := none, createdAt := now }],
    queue := s.queue ++ [{ id := queueId, jobId := jobId, runId := runId,
                           priority := 0, scheduledAt := now, pickedAt := none,
                           createdAt := now }] }

/-- A concrete job definition for the evaluation theorems. -/
def sampleJob : Job :=
  { id := 2, userId := 7, name := "hello", image := "alpine",
    command := ["echo", "hi"], memoryMB := 512, cpuMillicores := 1000,
    timeoutSeconds := 60, schedule := none, isActive := true }

/-- A concrete pending run of sampleJob. -/
def sampleRun : JobRun :=
  { id := 1, jobId := 2, userId := 7, status := .pending, containerId := none,
    exitCode := none, errorMessage := none, startedAt := none, finishedAt := none,
    pausedAt := none, heartbeatAt := none, durationMs := none, logsTail := none,
    createdAt := 50 }

/-- The claimed queue row of sampleRun (picked_at set by the claim). -/
def sampleQueueItem : QueueItem :=
  { id := 10, jobId := 2, runId := 1, priority := 0, scheduledAt := 50,
    pickedAt := some 60, createdAt := 50 }

/-- Store right after the claim: pending run, claimed queue row. -/
def sampleStore : Store :=
  { jobs := [sampleJob], runs := [sampleRun], queue := [sampleQueueItem] }

/-- Oracle of a run whose container exits with code 137 (stopped externally). -/
def exitOracle : DockerOracle :=
  { markRunningOk := true, pullErr := none, createOutcome := .ok "c0ffee",
    startErr := none, timerFires := false, waitExitCode := 137, waitErr := none,
    logsResult := "" }

/-- Oracle of a run whose image pull fails. -/
def pullFailOracle : DockerOracle :=
  { markRunningOk := true, pullErr := some "no such image",
    createOutcome := .ok "c0ffee", startErr := none, timerFires := false,
    waitExitCode := 0, waitErr := none, logsResult := "" }

/-- Oracle of a run whose supervision path panics (caught by the recover). -/
def panicOracle : DockerOracle :=
  { markRunningOk := true, pullErr := none, createOutcome := .panics "boom",
    startErr := none, timerFires := false, waitExitCode := 0, waitErr := none,
    logsResult := "" }

/-- Oracle of a fully successful run. -/
def okOracle : DockerOracle :=
  { markRunningOk := true, pullErr := none, createOutcome := .ok "c0ffee",
    startErr := none, timerFires := false, waitExitCode := 0, waitErr := none,
    logsResult := "hi" }

/-- Store after the first seven supervisor steps of exitOracle (through the
heartbeat start), before the kill handler runs. -/
def preKillStore : Store :=
  applyTrace 1 10 60 200 140000 ((executeRun 60 exitOracle).take 7) sampleStore

/-- Store after the kill handler committed its cancelled write at time 100. -/
def postKillStore : Store := (killRun 100 7 1 preKillStore).2

/-- Store after the supervisor's remaining steps, its terminal write included,
applied on top of the committed kill. -/
def postSupervisorStore : Store :=
  applyTrace 1 10 60 200 140000 ((executeRun 60 exitOracle).drop 7) postKillStore

/-- C1: the spec says the terminal update of the supervisor is conditional on the
current state still being running or paused, so that a kill whose cancelled write
is observed first wins and the supervisor's later write is a no-op. The terminal
UPDATE statements of Worker.executeRun carry only WHERE id, with no status
condition: in this interleaving the kill commits cancelled with Killed by user
first, and the supervisor's terminal write then overwrites the run to failed
with exit code 137, so the final status is not cancelled and the later write is
not a no-op. -/
theorem supervisorTerminalWriteOverwritesKill :
    (killRun 100 7 1 preKillStore).1 = KillResult.ok
    ∧ (∀ r ∈ postKillStore.runs, r.id = 1 →
        r.status = RunStatus.cancelled
        ∧ r.errorMessage = some "Killed by user"
        ∧ r.status.isTerminal = true)
    ∧ (∀ r ∈ postSupervisorStore.runs, r.id = 1 →
        r.status = RunStatus.failed ∧ r.errorMessage = some "exit code 137")
    ∧ postSupervisorStore ≠ postKillStore := by decide

/-- Store where a kill landed right after the run was marked running, before
the supervisor observed that its image pull had failed. -/
def killedDuringPullStore : Store :=
  (killRun 100 7 1
    (applyTrace 1 10 60 200 140000 ((executeRun 60 pullFailOracle).take 1) sampleStore)).2

/-- Store after the supervisor's pull-failure path (failRun and queue cleanup)
ran on top of the committed kill. -/
def afterFailRunStore : Store :=
  applyTrace 1 10 60 200 140000 ((executeRun 60 pullFailOracle).drop 1) killedDuringPullStore

/-- C2: once a run is terminal no subsequent update may change its status or
error_message, says the spec. The failRun UPDATE of the worker carries only
WHERE id, with no status condition: here the run is terminal (cancelled, with
error Killed by user) when the supervisor's pull-failure failRun executes, and
that write changes both the status and the error message. -/
theorem failRunResurrectsTerminalRun :
    (∀ r ∈ killedDuringPullStore.runs, r.id = 1 →
        r.status = RunStatus.cancelled
        ∧ r.status.isTerminal = true
        ∧ r.errorMessage = some "Killed by user")
    ∧ (∀ r ∈ afterFailRunStore.runs, r.id = 1 →
        r.status = RunStatus.failed
        ∧ r.errorMessage = some "image pull failed: no such image") := by decide

/-- Trace of a supervised execution that panics during container creation. -/
def panicTrace : List Ev := executeRun 60 panicOracle

/-- Store after the panicking execution ran against the claimed sample store. -/
def afterPanicStore : Store := applyTrace 1 10 60 200 140000 panicTrace sampleStore

/-- C3: the spec says the queue-row delete is invoked exactly once per claim,
whatever the outcome, panics included, so no queue row exists for a terminal
run. The deferred recover of Worker.executeRun routes a panic through failRun
only: the cleanup count of the panicking trace is zero, the run ends terminal
(failed), and its queue row is still present afterwards. -/
theorem panicPathSkipsCleanup :
    panicTrace.count Ev.cleanup = 0
    ∧ Ev.panicked "boom" ∈ panicTrace
    ∧ Ev.failRunWrite "panic: boom" ∈ panicTrace
    ∧ (∀ r ∈ afterPanicStore.runs, r.id = 1 →
        r.status = RunStatus.failed ∧ r.status.isTerminal = true)
    ∧ (∃ q ∈ afterPanicStore.queue, q.runId = 1) := by decide

/-- C6 counterexample: the claim says the heartbeat emitter is started before the
image pull, so heartbeats run during the pull. In the trace of a successful
supervised execution the pull strictly precedes the heartbeat start, and the
heartbeat start never precedes the pull. -/
theorem heartbeatStartsAfterPullCex :
    precedes Ev.heartbeatStart Ev.pullImage (executeRun 60 okOracle) = false
    ∧ precedes Ev.pullImage Ev.heartbeatStart (executeRun 60 okOracle) = true
    ∧ Ev.pullImage ∈ executeRun 60 okOracle
    ∧ Ev.heartbeatStart ∈ executeRun 60 okOracle := by decide

/-- C6 amended: the supervised execution first marks the run running (stamping
started_at and the initial heartbeat_at), then pulls the image, creates the
container, stores its id, registers the wait future, starts the container, and
only after that starts the heartbeat emitter. -/
theorem executeRunStepOrder (tmo : Nat) (o : DockerOracle) (cid : String)
    (hmark : o.markRunningOk = true) (hpull : o.pullErr = none)
    (hcreate : o.createOutcome = CreateOutcome.ok cid) (hstart : o.startErr = none) :
    ∃ rest, executeRun tmo o =
      Ev.markRunning :: Ev.pullImage :: Ev.createContainer :: Ev.storeContainerId cid ::
      Ev.registerWait :: Ev.startContainer :: Ev.heartbeatStart :: rest := by
  obtain ⟨mk, pe, co, se, tf, wec, werr, lr⟩ := o
  subst hmark hpull hcreate hstart
  exact ⟨_, rfl⟩

/-- Witness for the amended C6 order theorem at a concrete oracle. -/
theorem executeRunStepOrderWitness :
    ∃ rest, executeRun 60 okOracle =
      Ev.markRunning :: Ev.pullImage :: Ev.createContainer :: Ev.storeContainerId "c0ffee" ::
      Ev.registerWait :: Ev.startContainer :: Ev.heartbeatStart :: rest :=
  executeRunStepOrder 60 okOracle "c0ffee" rfl rfl rfl rfl

/-- C4: for a supervised run whose container was started, the trace carries the
terminal write of decideTerminal, and decideTerminal is exactly the claimed
case analysis: timeout beats everything with the timeout message, then a wait
error with its message, then exit 0 succeeded, then failed with exit code N. -/
theorem executeRunTerminalDecision (tmo : Nat) (o : DockerOracle) (cid : String)
    (timedOut : Bool) (d : TerminalDecision)
    (hmark : o.markRunningOk = true) (hpull : o.pullErr = none)
    (hcreate : o.createOutcome = CreateOutcome.ok cid) (hstart : o.startErr = none)
    (htd : timedOut = (decide (0 < tmo) && o.timerFires))
    (hd : d = decideTerminal timedOut tmo o.waitErr o.waitExitCode) :
    Ev.terminalWrite d.status d.exitCode d.errorMessage o.logsResult ∈ executeRun tmo o
    ∧ (timedOut = true →
        d.status = RunStatus.failed
        ∧ d.errorMessage = some ("timeout exceeded (" ++ toString tmo ++ "s limit)"))
    ∧ (timedOut = false → ∀ e, o.waitErr = some e →
        d.status = RunStatus.failed ∧ d.errorMessage = some e)
    ∧ (timedOut = false → o.waitErr = none → o.waitExitCode = 0 →
        d.status = RunStatus.succeeded ∧ d.exitCode = 0)
    ∧ (timedOut = false → o.waitErr = none → o.waitExitCode ≠ 0 →
        d.status = RunStatus.failed
        ∧ d.errorMessage = some ("exit code " ++ toString o.waitExitCode)) := by
  subst hd htd
  refine ⟨?_, ?_, ?_, ?_, ?_⟩
  · obtain ⟨mk, pe, co, se, tf, wec, werr, lr⟩ := o
    subst hmark hpull hcreate hstart
    simp [executeRun, List.mem_append]
  · intro ht
    simp only [decideTerminal]
    rw [ht]
    simp
  · intro ht e he
    simp only [decideTerminal]
    rw [ht]
    simp [he]
  · intro ht he hz
    simp only [decideTerminal]
    rw [ht]
    simp [he, hz]
  · intro ht he hz
    simp only [decideTerminal]
    rw [ht]
    simp [he, hz]

/-- Witness for the C4 terminal decision theorem at the exit-137 oracle. -/
theorem executeRunTerminalDecisionWitness :
    Ev.terminalWrite RunStatus.failed 137 (some "exit code 137") ""
        ∈ executeRun 60 exitOracle
    ∧ (false = true →
        RunStatus.failed = RunStatus.failed
        ∧ (some "exit code 137" : Option String)
            = some ("timeout exceeded (" ++ toString 60 ++ "s limit)"))
    ∧ (false = false → ∀ e, exitOracle.waitErr = some e →
        RunStatus.failed = RunStatus.failed ∧ (some "exit code 137" : Option String) = some e)
    ∧ (false = false → exitOracle.waitErr = none → exitOracle.waitExitCode = 0 →
        RunStatus.failed = RunStatus.succeeded ∧ (137 : Int) = 0)
    ∧ (false = false → exitOracle.waitErr = none → exitOracle.waitExitCode ≠ 0 →
        RunStatus.failed = RunStatus.failed
        ∧ (some "exit code 137" : Option String)
            = some ("exit code " ++ toString exitOracle.waitExitCode)) := by
  have h := executeRunTerminalDecision 60 exitOracle "c0ffee" false
    ⟨RunStatus.failed, 137, some "exit code 137"⟩ rfl rfl rfl rfl rfl (by decide)
  exact h

/-- C9: a successful kill sets the run to cancelled with error Killed by user
and deletes every queue row referencing that run, so no queue row for the
killed run remains afterwards. -/
theorem killRunQueueClosure (now uid rid : Nat) (s : Store) (run : JobRun)
    (hfind : findRunFor uid rid s = some run)
    (hstatus : run.status = RunStatus.running ∨ run.status = RunStatus.paused) :
    (killRun now uid rid s).1 = KillResult.ok
    ∧ (∀ q ∈ (killRun now uid rid s).2.queue, q.runId ≠ rid)
    ∧ (∀ r ∈ (killRun now uid rid s).2.runs, r.id = rid →
        r.status = RunStatus.cancelled ∧ r.errorMessage = some "Killed by user") := by
  have hcond : ¬(run.status ≠ RunStatus.running ∧ run.status ≠ RunStatus.paused) := by
    rcases hstatus with h | h <;> simp [h]
  simp only [killRun, hfind, if_neg hcond]
  refine ⟨trivial, ?_, ?_⟩
  · intro q hq
    exact of_decide_eq_true (List.mem_filter.mp hq).2
  · intro r hr hid
    simp only [updateRun, List.mem_map] at hr
    obtain ⟨r0, _, rfl⟩ := hr
    by_cases h0 : r0.id = rid
    · simp [h0]
    · rw [if_neg h0] at hid ⊢
      exact absurd hid h0

/-- A running, container-backed run used by the kill and logs witnesses. -/
def liveRun : JobRun :=
  { sampleRun with
    status := .running, startedAt := some 60, containerId := some "c0ffee",
    heartbeatAt := some 60, logsTail := some "stored" }

/-- Store holding liveRun and its claimed queue row. -/
def liveRunStore : Store :=
  { jobs := [sampleJob], runs := [liveRun], queue := [sampleQueueItem] }

/-- Witness for the C9 kill theorem at a concrete running run. -/
theorem killRunQueueClosureWitness :
    (killRun 100 7 1 liveRunStore).1 = KillResult.ok
    ∧ (∀ q ∈ (killRun 100 7 1 liveRunStore).2.queue, q.runId ≠ 1)
    ∧ (∀ r ∈ (killRun 100 7 1 liveRunStore).2.runs, r.id = 1 →
        r.status = RunStatus.cancelled ∧ r.errorMessage = some "Killed by user") :=
  killRunQueueClosure 100 7 1 liveRunStore liveRun (by decide) (Or.inl rfl)

/-- C10: for a run that exists and is owned by the caller, the logs endpoint
always answers ok with a logs string; with a container id and a live status it
returns the live logs when the live fetch succeeds, falls back to the stored
logs_tail when the live fetch fails, and otherwise returns the stored
logs_tail, the empty string standing for NULL. -/
theorem getRunLogsTotal (live : String → Except String String) (uid rid : Nat)
    (s : Store) (run : JobRun) (hfind : findRunFor uid rid s = some run) :
    (∃ l, getRunLogs live uid rid s = LogsResult.ok l)
    ∧ (∀ cid l, run.containerId = some cid →
        (run.status = RunStatus.running ∨ run.status = RunStatus.paused) →
        live cid = Except.ok l → getRunLogs live uid rid s = LogsResult.ok l)
    ∧ (∀ cid e, run.containerId = some cid →
        (run.status = RunStatus.running ∨ run.status = RunStatus.paused) →
        live cid = Except.error e →
        getRunLogs live uid rid s = LogsResult.ok (run.logsTail.getD ""))
    ∧ ((run.containerId = none
          ∨ (run.status ≠ RunStatus.running ∧ run.status ≠ RunStatus.paused)) →
        getRunLogs live uid rid s = LogsResult.ok (run.logsTail.getD ""))
    ∧ (run.logsTail = none → run.logsTail.getD "" = "") := by
  refine ⟨?_, ?_, ?_, ?_, ?_⟩
  · rcases hc : run.containerId with _ | cid
    · exact ⟨run.logsTail.getD "", by simp only [getRunLogs, hfind, hc]⟩
    · by_cases hs : run.status = RunStatus.running ∨ run.status = RunStatus.paused
      · rcases hl : live cid with e | l
        · exact ⟨run.logsTail.getD "",
            by simp only [getRunLogs, hfind, hc, if_pos hs, hl]⟩
        · exact ⟨l, by simp only [getRunLogs, hfind, hc, if_pos hs, hl]⟩
      · exact ⟨run.logsTail.getD "", by simp only [getRunLogs, hfind, hc, if_neg hs]⟩
  · intro cid l hc hs hl
    simp only [getRunLogs, hfind, hc, if_pos hs, hl]
  · intro cid e hc hs hl
    simp only [getRunLogs, hfind, hc, if_pos hs, hl]
  · intro h
    rcases h with hc | hs
    · simp only [getRunLogs, hfind, hc]
    · have hns : ¬(run.status = RunStatus.running ∨ run.status = RunStatus.paused) := by
        rcases hs with ⟨h1, h2⟩
        rintro (h | h)
        · exact h1 h
        · exact h2 h
      rcases hc : run.containerId with _ | cid
      · simp only [getRunLogs, hfind, hc]
      · simp only [getRunLogs, hfind, hc, if_neg hns]
  · intro h
    rw [h]
    rfl

/-- Witness for the C10 logs theorem: live fetch succeeds on a running run. -/
theorem getRunLogsTotalWitness :
    (∃ l, getRunLogs (fun _ => Except.ok "live") 7 1 liveRunStore = LogsResult.ok l)
    ∧ (∀ cid l, liveRun.containerId = some cid →
        (liveRun.status = RunStatus.running ∨ liveRun.status = RunStatus.paused) →
        (fun (_ : String) => Except.ok (ε := String) "live") cid = Except.ok l →
        getRunLogs (fun _ => Except.ok "live") 7 1 liveRunStore = LogsResult.ok l)
    ∧ (∀ cid e, liveRun.containerId = some cid →
        (liveRun.status = RunStatus.running ∨ liveRun.status = RunStatus.paused) →
        (fun (_ : String) => Except.ok (ε := String) "live") cid = Except.error e →
        getRunLogs (fun _ => Except.ok "live") 7 1 liveRunStore
          = LogsResult.ok (liveRun.logsTail.getD ""))
    ∧ ((liveRun.containerId = none
          ∨ (liveRun.status ≠ RunStatus.running ∧ liveRun.status ≠ RunStatus.paused)) →
        getRunLogs (fun _ => Except.ok "live") 7 1 liveRunStore
          = LogsResult.ok (liveRun.logsTail.getD ""))
    ∧ (liveRun.logsTail = none → liveRun.logsTail.getD "" = "") :=
  getRunLogsTotal (fun _ => Except.ok "live") 7 1 liveRunStore liveRun (by decide)

/-- C7: the scheduler enqueues exactly when the cron expression parsed, the job
has no run in a non-terminal state, and either the job never ran or now is at
or past next(created_at of the most recent run); and an enqueue decided this
way leaves the job with exactly one non-terminal run, so scheduler action
never stacks runs. The parameter next is the parsed schedule Next function. -/
theorem shouldEnqueueSpec (next : Nat → Nat) (parseOk : Bool)
    (jobId userId runId queueId now : Nat) (s : Store) :
    (shouldEnqueue next parseOk jobId now s = true ↔
      parseOk = true ∧ nonTerminalCount jobId s = 0 ∧
        (lastRunCreatedAt jobId s = none ∨
         ∃ t, lastRunCreatedAt jobId s = some t ∧ next t ≤ now))
    ∧ (shouldEnqueue next parseOk jobId now s = true →
        nonTerminalCount jobId (enqueueScheduledRun jobId userId runId queueId now s) = 1) := by
  have hinc : nonTerminalCount jobId (enqueueScheduledRun jobId userId runId queueId now s)
      = nonTerminalCount jobId s + 1 := by
    simp [nonTerminalCount, enqueueScheduledRun, List.filter_append]
  have hiff : shouldEnqueue next parseOk jobId now s = true ↔
      parseOk = true ∧ nonTerminalCount jobId s = 0 ∧
        (lastRunCreatedAt jobId s = none ∨
         ∃ t, lastRunCreatedAt jobId s = some t ∧ next t ≤ now) := by
    constructor
    · intro h
      simp only [shouldEnqueue] at h
      cases hp : parseOk with
      | false => rw [hp] at h; simp at h
      | true =>
        rw [hp] at h
        simp only [Bool.not_true, Bool.false_eq_true, if_false] at h
        by_cases hc : 0 < nonTerminalCount jobId s
        · rw [if_pos hc] at h
          exact absurd h (by simp)
        · rw [if_neg hc] at h
          have hc0 : nonTerminalCount jobId s = 0 := by omega
          rcases hlr : lastRunCreatedAt jobId s with _ | t
          · exact ⟨rfl, hc0, Or.inl rfl⟩
          · rw [hlr] at h
            exact ⟨rfl, hc0, Or.inr ⟨t, rfl, of_decide_eq_true h⟩⟩
    · rintro ⟨hp, hc0, hl⟩
      rcases hlr : lastRunCreatedAt jobId s with _ | t
      · simp [shouldEnqueue, hp, hc0, hlr]
      · rcases hl with h | ⟨t2, ht2, hle⟩
        · rw [hlr] at h
          exact absurd h (by simp)
        · rw [hlr] at ht2
          injection ht2 with ht2
          subst ht2
          simp [shouldEnqueue, hp, hc0, hlr, hle]
  refine ⟨hiff, fun h => ?_⟩
  rw [hinc, (hiff.mp h).2.1]

/-- Store with a scheduled job and no runs yet, for the scheduler witness. -/
def schedStore : Store := { jobs := [sampleJob], runs := [], queue := [] }

/-- Witness for the C7 scheduler theorem at a concrete store with no runs. -/
theorem shouldEnqueueSpecWitness :
    (shouldEnqueue (fun t => t + 60) true 2 120 schedStore = true ↔
      true = true ∧ nonTerminalCount 2 schedStore = 0 ∧
        (lastRunCreatedAt 2 schedStore = none ∨
         ∃ t, lastRunCreatedAt 2 schedStore = some t ∧ t + 60 ≤ 120))
    ∧ (shouldEnqueue (fun t => t + 60) true 2 120 schedStore = true →
        nonTerminalCount 2 (enqueueScheduledRun 2 7 21 30 120 schedStore) = 1) :=
  shouldEnqueueSpec (fun t => t + 60) true 2 7 21 30 120 schedStore

/-- Runs with distinct ids are determined by their id. -/
theorem memIdInj {l : List JobRun} (h : (l.map JobRun.id).Nodup)
    {a b : JobRun} (ha : a ∈ l) (hb : b ∈ l) (hid : a.id = b.id) : a = b := by
  induction l with
  | nil => cases ha
  | cons x l ih =>
    simp only [List.map_cons, List.nodup_cons] at h
    obtain ⟨hx, hl⟩ := h
    rcases List.mem_cons.mp ha with rfl | ha2
    · rcases List.mem_cons.mp hb with rfl | hb2
      · rfl
      · exact absurd (hid ▸ List.mem_map_of_mem JobRun.id hb2) hx
    · rcases List.mem_cons.mp hb with rfl | hb2
      · exact absurd (hid ▸ List.mem_map_of_mem JobRun.id ha2) hx
      · exact ih hl ha2 hb2

/-- Updating rows in place under an id-keyed condition keeps the id column. -/
theorem mapIdUpdate (c : Nat → Bool) (f : JobRun → JobRun)
    (hf : ∀ r, (f r).id = r.id) (l : List JobRun) :
    (l.map fun r => if c r.id then f r else r).map JobRun.id = l.map JobRun.id := by
  induction l with
  | nil => rfl
  | cons x l ih =>
    simp only [List.map_cons, ih]
    by_cases hx : c x.id = true
    · rw [if_pos hx, hf]
    · rw [if_neg hx]

/-- A reaper pass keeps the id column of job_runs. -/
theorem reapIds (now : Nat) (s : Store) :
    (reapStaleRuns now s).runs.map JobRun.id = s.runs.map JobRun.id := by
  simp only [reapStaleRuns]
  exact mapIdUpdate _
    (fun r =>
      { r with
        status := RunStatus.failed,
        errorMessage := some "heartbeat timeout: worker may have crashed",
        finishedAt := some now, heartbeatAt := none })
    (fun r => rfl) s.runs

/-- A run the stale condition rejects is left untouched by a reaper pass. -/
theorem reapKeepsUnstale (now : Nat) (s : Store)
    (hnodup : (s.runs.map JobRun.id).Nodup) (r : JobRun)
    (hmem : r ∈ s.runs) (hns : isStale now r = false) :
    r ∈ (reapStaleRuns now s).runs := by
  have hnotmem : r.id ∉ (s.runs.filter (isStale now)).map JobRun.id := by
    intro hm
    obtain ⟨r2, hr2mem, hr2id⟩ := List.mem_map.mp hm
    have hr2 : r2 ∈ s.runs := (List.mem_filter.mp hr2mem).1
    have hst : isStale now r2 = true := (List.mem_filter.mp hr2mem).2
    rw [memIdInj hnodup hr2 hmem hr2id] at hst
    rw [hst] at hns
    cases hns
  have hnc : ((s.runs.filter (isStale now)).map JobRun.id).contains r.id = false := by
    simpa using hnotmem
  simp only [reapStaleRuns]
  refine List.mem_map.mpr ⟨r, hmem, ?_⟩
  rw [hnc]
  simp

/-- C8: the stale condition of a reaper pass holds exactly for a running or
paused run with a non-null heartbeat older than the 60-second threshold; any
run failing it survives the pass unchanged; a stale run is forced to failed
with the heartbeat-timeout message; and a running or paused run whose
heartbeat_at is null is untouched by any sequence of reaper passes, so it can
stay non-terminal indefinitely. -/
theorem reaperStaleOnly (now : Nat) (s : Store)
    (hnodup : (s.runs.map JobRun.id).Nodup) :
    (∀ r ∈ s.runs, isStale now r = true ↔
       ((r.status = RunStatus.running ∨ r.status = RunStatus.paused)
         ∧ ∃ h, r.heartbeatAt = some h ∧ h + staleThreshold < now))
    ∧ (∀ r ∈ s.runs, isStale now r = false → r ∈ (reapStaleRuns now s).runs)
    ∧ (∀ r ∈ s.runs, isStale now r = true →
        { r with status := RunStatus.failed,
                 errorMessage := some "heartbeat timeout: worker may have crashed",
                 finishedAt := some now, heartbeatAt := none }
          ∈ (reapStaleRuns now s).runs)
    ∧ (∀ r ∈ s.runs, r.heartbeatAt = none →
        ∀ nows : List Nat, r ∈ (nows.foldl (fun st t => reapStaleRuns t st) s).runs) := by
  refine ⟨?_, ?_, ?_, ?_⟩
  · intro r _
    rcases hh : r.heartbeatAt with _ | h
    · simp [isStale, hh]
    · simp [isStale, hh]
  · intro r hmem hns
    exact reapKeepsUnstale now s hnodup r hmem hns
  · intro r hmem hst
    have hc : ((s.runs.filter (isStale now)).map JobRun.id).contains r.id = true := by
      simpa using List.mem_map_of_mem JobRun.id (List.mem_filter.mpr ⟨hmem, hst⟩)
    simp only [reapStaleRuns]
    refine List.mem_map.mpr ⟨r, hmem, ?_⟩
    rw [hc]
    simp
  · intro r hmem hh nows
    induction nows generalizing s with
    | nil => exact hmem
    | cons t ts ih =>
      simp only [List.foldl_cons]
      refine ih (reapStaleRuns t s) ?_ ?_
      · rw [reapIds]
        exact hnodup
      · refine reapKeepsUnstale t s hnodup r hmem ?_
        simp [isStale, hh]

/-- Store with a running run whose heartbeat_at is null, for the C8 witness. -/
def nullHeartbeatStore : Store :=
  { jobs := [sampleJob],
    runs := [{ sampleRun with
               status := .running, startedAt := some 60, heartbeatAt := none }],
    queue := [] }

/-- Witness for the C8 reaper theorem at a concrete store. -/
theorem reaperStaleOnlyWitness :
    (∀ r ∈ nullHeartbeatStore.runs, isStale 1000 r = true ↔
       ((r.status = RunStatus.running ∨ r.status = RunStatus.paused)
         ∧ ∃ h, r.heartbeatAt = some h ∧ h + staleThreshold < 1000))
    ∧ (∀ r ∈ nullHeartbeatStore.runs, isStale 1000 r = false →
        r ∈ (reapStaleRuns 1000 nullHeartbeatStore).runs)
    ∧ (∀ r ∈ nullHeartbeatStore.runs, isStale 1000 r = true →
        { r with status := RunStatus.failed,
                 errorMessage := some "heartbeat timeout: worker may have crashed",
                 finishedAt := some 1000, heartbeatAt := none }
          ∈ (reapStaleRuns 1000 nullHeartbeatStore).runs)
    ∧ (∀ r ∈ nullHeartbeatStore.runs, r.heartbeatAt = none →
        ∀ nows : List Nat,
          r ∈ (nows.foldl (fun st t => reapStaleRuns t st) nullHeartbeatStore).runs) :=
  reaperStaleOnly 1000 nullHeartbeatStore (by decide)

/-- The strict queue order in Prop form. -/
theorem ordBeforeIffProp (a b : QueueItem) : ordBefore a b = true ↔
    (b.priority < a.priority
      ∨ (a.priority = b.priority ∧ a.scheduledAt < b.scheduledAt)) := by
  simp [ordBefore]

/-- Negation of the strict queue order in Prop form. -/
theorem ordBeforeFalseIff (a b : QueueItem) : ordBefore a b = false ↔
    ¬(b.priority < a.priority
      ∨ (a.priority = b.priority ∧ a.scheduledAt < b.scheduledAt)) := by
  rw [← ordBeforeIffProp]
  cases ordBefore a b <;> simp

/-- The queue order is irreflexive. -/
theorem ordBeforeIrrefl (a : QueueItem) : ordBefore a a = false := by
  simp [ordBefore]

/-- The queue order is transitive. -/
theorem ordBeforeTrans {a b c : QueueItem} (h1 : ordBefore a b = true)
    (h2 : ordBefore b c = true) : ordBefore a c = true := by
  rw [ordBeforeIffProp] at h1 h2 ⊢
  omega

/-- The complement of the queue order is transitive. -/
theorem ordBeforeNegTrans {a b c : QueueItem} (h1 : ordBefore a b = false)
    (h2 : ordBefore b c = false) : ordBefore a c = false := by
  rw [ordBeforeFalseIff] at h1 h2 ⊢
  omega

/-- The fold of selectBest lands on the seed or on a list element. -/
theorem foldlPickMem (l : List QueueItem) (q : QueueItem) :
    l.foldl (fun b q2 => if ordBefore q2 b then q2 else b) q = q
    ∨ l.foldl (fun b q2 => if ordBefore q2 b then q2 else b) q ∈ l := by
  induction l generalizing q with
  | nil => exact Or.inl rfl
  | cons a l ih =>
    simp only [List.foldl_cons]
    rcases ih (if ordBefore a q then a else q) with h | h
    · rw [h]
      by_cases hq : ordBefore a q = true
      · rw [if_pos hq]
        exact Or.inr (List.mem_cons_self a l)
      · rw [if_neg hq]
        exact Or.inl rfl
    · exact Or.inr (List.mem_cons_of_mem a h)

/-- Nothing among the seed and the list elements sorts strictly before the
fold of selectBest. -/
theorem foldlPickBest (l : List QueueItem) (q : QueueItem) :
    ordBefore q (l.foldl (fun b q2 => if ordBefore q2 b then q2 else b) q) = false
    ∧ ∀ x ∈ l,
        ordBefore x (l.foldl (fun b q2 => if ordBefore q2 b then q2 else b) q) = false := by
  induction l generalizing q with
  | nil =>
    refine ⟨ordBeforeIrrefl q, ?_⟩
    intro x hx
    cases hx
  | cons a l ih =>
    simp only [List.foldl_cons]
    by_cases hq : ordBefore a q = true
    · rw [if_pos hq]
      obtain ⟨h1, h2⟩ := ih a
      refine ⟨?_, ?_⟩
      · cases hqr : ordBefore q
          (l.foldl (fun b q2 => if ordBefore q2 b then q2 else b) a) with
        | false => rfl
        | true =>
          have hcontra := ordBeforeTrans hq hqr
          rw [h1] at hcontra
          cases hcontra
      · intro x hx
        rcases List.mem_cons.mp hx with rfl | hx2
        · exact h1
        · exact h2 x hx2
    · rw [if_neg hq]
      obtain ⟨h1, h2⟩ := ih q
      have hqf : ordBefore a q = false := by
        cases h : ordBefore a q with
        | false => rfl
        | true => exact absurd h hq
      refine ⟨h1, ?_⟩
      intro x hx
      rcases List.mem_cons.mp hx with rfl | hx2
      · exact ordBeforeNegTrans hqf h1
      · exact h2 x hx2

/-- A selected row is a row of the candidate list. -/
theorem selectBestMem {l : List QueueItem} {q : QueueItem}
    (h : selectBest l = some q) : q ∈ l := by
  cases l with
  | nil => cases h
  | cons a l =>
    simp only [selectBest, Option.some.injEq] at h
    rcases foldlPickMem l a with h2 | h2
    · rw [← h, h2]
      exact List.mem_cons_self a l
    · rw [← h]
      exact List.mem_cons_of_mem a h2

/-- selectBest yields nothing exactly on the empty candidate list. -/
theorem selectBestNone {l : List QueueItem} : selectBest l = none ↔ l = [] := by
  cases l <;> simp [selectBest]

/-- No candidate sorts strictly before the selected row. -/
theorem selectBestBest {l : List QueueItem} {q : QueueItem}
    (h : selectBest l = some q) : ∀ x ∈ l, ordBefore x q = false := by
  cases l with
  | nil => cases h
  | cons a l =>
    simp only [selectBest, Option.some.injEq] at h
    intro x hx
    obtain ⟨h1, h2⟩ := foldlPickBest l a
    rw [h] at h1 h2
    rcases List.mem_cons.mp hx with rfl | hx2
    · exact h1
    · exact h2 x hx2

/-- A row claimQuery selects is a queue row, is eligible, and joins a job. -/
theorem claimQueryJoin {now : Nat} {locked : List Nat} {s : Store} {q : QueueItem}
    (h : claimQuery now locked s = some q) :
    q ∈ s.queue ∧ claimEligible now locked s.jobs q = true
    ∧ ∃ j, s.jobs.find? (fun jb => jb.id == q.jobId) = some j := by
  simp only [claimQuery] at h
  have hm := selectBestMem h
  refine ⟨(List.mem_filter.mp hm).1, (List.mem_filter.mp hm).2, ?_⟩
  have h2 := (List.mem_filter.mp hm).2
  simp only [claimEligible, Bool.and_eq_true] at h2
  exact Option.isSome_iff_exists.mp h2.2

/-- C5: one poll reports no work exactly when no queue row is eligible (picked_at
null, scheduled_at at or before now, not lock-held by another worker, joining a
job), reports a store error exactly on a store failure (distinguishable from no
work), and a claimed row is an eligible queue row that no other eligible row
sorts strictly before under priority DESC, scheduled_at ASC; the commit sets
picked_at = now on exactly that row and changes nothing else. -/
theorem pollAndExecuteClaimSpec (now : Nat) (locked : List Nat) (s : Store) :
    ((pollAndExecute false now locked s).1 = ClaimOutcome.empty ↔
      ∀ q ∈ s.queue, claimEligible now locked s.jobs q = false)
    ∧ (∀ dbFail : Bool,
        (pollAndExecute dbFail now locked s).1 = ClaimOutcome.dbError ↔ dbFail = true)
    ∧ (∀ j q, (pollAndExecute false now locked s).1 = ClaimOutcome.claimed j q →
        q ∈ s.queue
        ∧ q.pickedAt = none
        ∧ q.scheduledAt ≤ now
        ∧ locked.contains q.id = false
        ∧ s.jobs.find? (fun jb => jb.id == q.jobId) = some j
        ∧ (∀ q2 ∈ s.queue, claimEligible now locked s.jobs q2 = true →
            ordBefore q2 q = false)
        ∧ (pollAndExecute false now locked s).2.runs = s.runs
        ∧ (pollAndExecute false now locked s).2.jobs = s.jobs
        ∧ (pollAndExecute false now locked s).2.queue
            = s.queue.map fun r =>
                if r.id = q.id then { r with pickedAt := some now } else r) := by
  refine ⟨?_, ?_, ?_⟩
  · rcases hcq : claimQuery now locked s with _ | q0
    · have hout : (pollAndExecute false now locked s).1 = ClaimOutcome.empty := by
        simp [pollAndExecute, hcq]
      simp only [hout]
      have hfilnil : s.queue.filter (claimEligible now locked s.jobs) = [] := by
        simp only [claimQuery] at hcq
        exact selectBestNone.mp hcq
      constructor
      · intro _ q hq
        cases he : claimEligible now locked s.jobs q with
        | false => rfl
        | true =>
          have hmem : q ∈ s.queue.filter (claimEligible now locked s.jobs) :=
            List.mem_filter.mpr ⟨hq, he⟩
          rw [hfilnil] at hmem
          cases hmem
      · intro _
        trivial
    · obtain ⟨hq0mem, helig, j0, hj0⟩ := claimQueryJoin hcq
      have hout : (pollAndExecute false now locked s).1 = ClaimOutcome.claimed j0 q0 := by
        simp [pollAndExecute, hcq, hj0]
      simp only [hout]
      constructor
      · intro h
        cases h
      · intro hall
        have hfalse := hall q0 hq0mem
        rw [helig] at hfalse
        cases hfalse
  · intro dbFail
    cases dbFail with
    | true =>
      constructor
      · intro _
        trivial
      · intro _
        trivial
    | false =>
      constructor
      · intro h
        exfalso
        rcases hcq : claimQuery now locked s with _ | q0
        · have hout : (pollAndExecute false now locked s).1 = ClaimOutcome.empty := by
            simp [pollAndExecute, hcq]
          rw [hout] at h
          cases h
        · obtain ⟨_, _, j0, hj0⟩ := claimQueryJoin hcq
          have hout : (pollAndExecute false now locked s).1 = ClaimOutcome.claimed j0 q0 := by
            simp [pollAndExecute, hcq, hj0]
          rw [hout] at h
          cases h
      · intro h
        cases h
  · intro j q hclaimed
    rcases hcq : claimQuery now locked s with _ | q0
    · have hout : (pollAndExecute false now locked s).1 = ClaimOutcome.empty := by
        simp [pollAndExecute, hcq]
      rw [hout] at hclaimed
      cases hclaimed
    · obtain ⟨hq0mem, helig, j0, hj0⟩ := claimQueryJoin hcq
      have hout : (pollAndExecute false now locked s).1 = ClaimOutcome.claimed j0 q0 := by
        simp [pollAndExecute, hcq, hj0]
      rw [hout] at hclaimed
      injection hclaimed with hj hq
      subst hj
      subst hq
      have hstore : (pollAndExecute false now locked s).2
          = { s with queue := s.queue.map fun r =>
                if r.id = q0.id then { r with pickedAt := some now } else r } := by
        simp [pollAndExecute, hcq, hj0]
      have heligparts := helig
      simp only [claimEligible, Bool.and_eq_true] at heligparts
      obtain ⟨⟨⟨hpick, hsched⟩, hlock⟩, _⟩ := heligparts
      have hlockf : locked.contains q0.id = false := by
        cases hcb : locked.contains q0.id with
        | false => rfl
        | true =>
          rw [hcb] at hlock
          cases hlock
      refine ⟨hq0mem, Option.isNone_iff_eq_none.mp hpick, of_decide_eq_true hsched,
        hlockf, hj0, ?_, ?_, ?_, ?_⟩
      · intro q2 hq2 he2
        have hbest := selectBestBest (l := s.queue.filter (claimEligible now locked s.jobs))
          (by simpa [claimQuery] using hcq)
        exact hbest q2 (List.mem_filter.mpr ⟨hq2, he2⟩)
      · rw [hstore]
      · rw [hstore]
      · rw [hstore]

/-- Three concrete queue rows: an ordinary one, a higher-priority one, and a
highest-priority one held (locked) by another worker. -/
def qLow : QueueItem :=
  { id := 11, jobId := 2, runId := 3, priority := 0, scheduledAt := 40,
    pickedAt := none, createdAt := 40 }

def qHigh : QueueItem :=
  { id := 12, jobId := 2, runId := 4, priority := 5, scheduledAt := 45,
    pickedAt := none, createdAt := 45 }

def qHeld : QueueItem :=
  { id := 13, jobId := 2, runId := 5, priority := 9, scheduledAt := 10,
    pickedAt := none, createdAt := 10 }

/-- Store for the C5 witness. -/
def claimStore : Store :=
  { jobs := [sampleJob], runs := [], queue := [qLow, qHigh, qHeld] }

/-- Witness for the C5 claim theorem: with row 13 lock-held, the poll at time
100 claims the best unlocked row. -/
theorem pollAndExecuteClaimSpecWitness :
    ((pollAndExecute false 100 [13] claimStore).1 = ClaimOutcome.empty ↔
      ∀ q ∈ claimStore.queue, claimEligible 100 [13] claimStore.jobs q = false)
    ∧ (∀ dbFail : Bool,
        (pollAndExecute dbFail 100 [13] claimStore).1 = ClaimOutcome.dbError ↔ dbFail = true)
    ∧ (∀ j q, (pollAndExecute false 100 [13] claimStore).1 = ClaimOutcome.claimed j q →
        q ∈ claimStore.queue
        ∧ q.pickedAt = none
        ∧ q.scheduledAt ≤ 100
        ∧ List.contains [13] q.id = false
        ∧ claimStore.jobs.find? (fun jb => jb.id == q.jobId) = some j
        ∧ (∀ q2 ∈ claimStore.queue, claimEligible 100 [13] claimStore.jobs q2 = true →
            ordBefore q2 q = false)
        ∧ (pollAndExecute false 100 [13] claimStore).2.runs = claimStore.runs
        ∧ (pollAndExecute false 100 [13] claimStore).2.jobs = claimStore.jobs
        ∧ (pollAndExecute false 100 [13] claimStore).2.queue
            = claimStore.queue.map fun r =>
                if r.id = q.id then { r with pickedAt := some 100 } else r) :=
  pollAndExecuteClaimSpec 100 [13] claimStore

end Orbex
